import Mathlib

/-!
Verification of the churn-risk analysis pipeline of `streamlit_app.py`.

The Python source is shallowly embedded: Python strings become `List Char`
(written `Text`), Python `None`-able values become `Option`, the external
news provider and the text-generation provider become explicit function
arguments, and a Python exception raised by a provider call is modelled as
an `Except.error` value returned by that function argument.  Each embedded
definition keeps the name of the Python function it translates.
-/

set_option maxRecDepth 20000

/-- Python strings are modelled as lists of characters. -/
abbrev Text := List Char

/-- Conversion from a Lean string literal to the `Text` model. -/
def str (s : String) : Text := s.data

/-- Python `str.lower()` (ASCII behaviour, which covers every string the
program matches against). -/
def lowerText (t : Text) : Text := t.map Char.toLower

/-- Python's substring operator `pat in t`, as a boolean scan: `pat` is a
prefix of some suffix of `t`. -/
def containsPat (pat : Text) : Text → Bool
  | [] => pat.isEmpty
  | c :: cs => pat.isPrefixOf (c :: cs) || containsPat pat cs

/-- The five risk levels recognised by `get_risk_level`. -/
inductive RiskLevel where
  | low
  | medium
  | high
  | noChurn
  | unknown
  deriving DecidableEq, Repr

/-- Embedding of `get_risk_level` (src/streamlit_app.py lines 200-211):
lower-case the summary text, then test substring containment in the fixed
order low / medium / high / no-churn, falling back to Unknown Risk. -/
def get_risk_level (summary_text : Text) : RiskLevel :=
  let summary_text_lower := lowerText summary_text
  if containsPat (str "low risk") summary_text_lower then .low
  else if containsPat (str "medium risk") summary_text_lower then .medium
  else if containsPat (str "high risk") summary_text_lower then .high
  else if containsPat (str "no churn risk indicated") summary_text_lower then .noChurn
  else .unknown

theorem containsPat_eq_true_iff (pat t : Text) : containsPat pat t = true ↔ pat <:+: t := by
  induction t with
  | nil =>
    simp [containsPat, List.isEmpty_iff]
  | cons c cs ih =>
    simp only [containsPat, Bool.or_eq_true, List.isPrefixOf_iff_prefix, ih,
      List.infix_cons_iff]

theorem containsPat_eq_false_iff (pat t : Text) :
    containsPat pat t = false ↔ ¬ pat <:+: t := by
  rw [← containsPat_eq_true_iff]
  cases containsPat pat t <;> simp

theorem lowerText_contains_of_contains (pat t : Text) (hfix : lowerText pat = pat)
    (h : containsPat pat t = true) : containsPat pat (lowerText t) = true := by
  rw [containsPat_eq_true_iff] at h ⊢
  have := h.map Char.toLower
  rwa [show pat.map Char.toLower = pat from hfix] at this

/-- C1: `get_risk_level` lower-cases its input and returns the first match in
the fixed priority order low / medium / high / no-churn-indicated, falling
back to Unknown Risk; consequently any text containing both the literal
substrings "low risk" and "high risk" is classified Low Risk. -/
theorem get_risk_level_priority (t : Text) :
    (containsPat (str "low risk") (lowerText t) = true → get_risk_level t = .low) ∧
    (containsPat (str "low risk") (lowerText t) = false →
      containsPat (str "medium risk") (lowerText t) = true → get_risk_level t = .medium) ∧
    (containsPat (str "low risk") (lowerText t) = false →
      containsPat (str "medium risk") (lowerText t) = false →
      containsPat (str "high risk") (lowerText t) = true → get_risk_level t = .high) ∧
    (containsPat (str "low risk") (lowerText t) = false →
      containsPat (str "medium risk") (lowerText t) = false →
      containsPat (str "high risk") (lowerText t) = false →
      containsPat (str "no churn risk indicated") (lowerText t) = true →
      get_risk_level t = .noChurn) ∧
    (containsPat (str "low risk") (lowerText t) = false →
      containsPat (str "medium risk") (lowerText t) = false →
      containsPat (str "high risk") (lowerText t) = false →
      containsPat (str "no churn risk indicated") (lowerText t) = false →
      get_risk_level t = .unknown) ∧
    (containsPat (str "low risk") t = true → containsPat (str "high risk") t = true →
      get_risk_level t = .low) := by
  refine ⟨?_, ?_, ?_, ?_, ?_, ?_⟩
  · intro h1; simp [get_risk_level, h1]
  · intro h1 h2; simp [get_risk_level, h1, h2]
  · intro h1 h2 h3; simp [get_risk_level, h1, h2, h3]
  · intro h1 h2 h3 h4; simp [get_risk_level, h1, h2, h3, h4]
  · intro h1 h2 h3 h4; simp [get_risk_level, h1, h2, h3, h4]
  · intro hlo hhi
    have h1 : containsPat (str "low risk") (lowerText t) = true :=
      lowerText_contains_of_contains _ _ (by decide) hlo
    simp [get_risk_level, h1]

/-- Concrete run of C1: a text containing both "low risk" and "high risk"
parses to Low Risk. -/
theorem get_risk_level_priority_witness :
    containsPat (str "low risk") (str "both low risk and high risk here") = true ∧
    containsPat (str "high risk") (str "both low risk and high risk here") = true ∧
    get_risk_level (str "both low risk and high risk here") = .low :=
  ⟨by decide, by decide,
    (get_risk_level_priority (str "both low risk and high risk here")).2.2.2.2.2
      (by decide) (by decide)⟩

/-- Embedding of `urlparse(source_link).netloc` for the URLs the program
feeds it (`scheme://host/path...`): the text after the first "://" up to the
first "/", "?" or "#"; empty when no "://" is present (as for the default
empty source link). -/
def netloc : Text → Text
  | [] => []
  | ':' :: '/' :: '/' :: rest =>
    rest.takeWhile fun c => !(c == '/' || c == '?' || c == '#')
  | _ :: rest => netloc rest

/-- Python `domain.replace("www.", "")` (src/streamlit_app.py line 124):
removes every non-overlapping occurrence of the substring "www.",
scanning left to right. -/
def removeWWW : Text → Text
  | 'w' :: 'w' :: 'w' :: '.' :: rest => removeWWW rest
  | c :: rest => c :: removeWWW rest
  | [] => []

/-- The normalized domain the allowed-domain filter compares against:
`urlparse(source_link).netloc.replace("www.", "")`. -/
def normalizeDomain (source_link : Text) : Text := removeWWW (netloc source_link)

/-- An article record as used by the program: the optional fields mirror
`article.get(...)` lookups that may be absent, and `source_href` mirrors
`article.get('source', \x7b\x7d).get('href', '')` with its empty default. -/
structure Article where
  title : Option Text
  link : Option Text
  summary : Option Text
  source_href : Text
  deriving DecidableEq, Repr

/-- The domain-matching test of `fetch_news` for one article:
`any(d in domain for d in allowed_domains)` on the normalized domain. -/
def articleMatches (allowed_domains : List Text) (a : Article) : Bool :=
  allowed_domains.any fun d => containsPat d (normalizeDomain a.source_href)

/-- The articles one query batch keeps (src/streamlit_app.py lines 118-131):
with a non-empty allowed-domain list, keep the domain-matching articles, and
if none match fall back to the first raw result (`entries.take 1`, which is
also correct when the batch is empty); with no allowed-domain list
(Python-falsy `None` or `[]`), keep every entry. -/
def keptArticles (allowed_domains : List Text) (entries : List Article) : List Article :=
  if allowed_domains.isEmpty then entries
  else
    let articles_for_query := entries.filter (articleMatches allowed_domains)
    if articles_for_query.isEmpty then entries.take 1 else articles_for_query

/-- The kept articles of one provider batch result, where `none` models a
provider response that is falsy or lacks an `entries` key (the batch is
skipped with a warning). -/
def batchKept (allowed_domains : List Text) : Option (List Article) → List Article
  | none => []
  | some entries => keptArticles allowed_domains entries

/-- The accumulation loop of `fetch_news` (lines 110-133): per batch, extend
the running result list with the kept articles truncated to `max_articles`. -/
def fetchLoop (max_articles : Nat) (allowed_domains : List Text) :
    List (Option (List Article)) → List Article
  | [] => []
  | b :: bs =>
    (batchKept allowed_domains b).take max_articles ++ fetchLoop max_articles allowed_domains bs

/-- Embedding of the successful path of `fetch_news` (lines 97-141): the
provider's per-batch results are an input; the final list is truncated to
`max_articles` in total. -/
def fetch_news (max_articles : Nat) (allowed_domains : List Text)
    (batches : List (Option (List Article))) : List Article :=
  (fetchLoop max_articles allowed_domains batches).take max_articles

/-- Embedding of `fetch_news` including its exception handler (lines
137-139): when the provider raises, the function returns `None`. -/
def fetch_news_result (provider_raises : Bool) (max_articles : Nat)
    (allowed_domains : List Text) (batches : List (Option (List Article))) :
    Option (List Article) :=
  if provider_raises then none else some (fetch_news max_articles allowed_domains batches)

theorem take_join_map_take {α : Type} (m : Nat) (ls : List (List α)) :
    ∀ k, k ≤ m → ((ls.map (List.take m)).flatten).take k = (ls.flatten).take k := by
  induction ls with
  | nil => intro k hk; simp
  | cons a rest ih =>
    intro k hk
    rw [List.map_cons, List.flatten_cons, List.flatten_cons,
      List.take_append_eq_append_take, List.take_append_eq_append_take,
      List.take_take, List.length_take, Nat.min_eq_left hk]
    by_cases h : a.length ≤ m
    · rw [Nat.min_eq_right h]
      exact congrArg _ (ih _ (le_trans (Nat.sub_le _ _) hk))
    · push_neg at h
      rw [Nat.min_eq_left h.le, Nat.sub_eq_zero_of_le hk,
        Nat.sub_eq_zero_of_le (le_trans hk h.le)]
      simp

theorem fetchLoop_eq_join (m : Nat) (A : List Text) (bs : List (Option (List Article))) :
    fetchLoop m A bs = (bs.map fun b => (batchKept A b).take m).flatten := by
  induction bs with
  | nil => rfl
  | cons b rest ih => simp [fetchLoop, ih]

/-- C3: the output of `fetch_news` is the batch-order concatenation of each
batch's kept articles, truncated to `max_articles` in total (the per-batch
`[:max_articles]` slice changes nothing); in particular 3 batches that each
keep 3 articles under a `max_articles` of 5 yield exactly the first 5
articles of the concatenation. -/
theorem fetch_news_is_global_truncation (max_articles : Nat) (allowed : List Text)
    (batches : List (Option (List Article))) :
    fetch_news max_articles allowed batches
      = ((batches.map (batchKept allowed)).flatten).take max_articles ∧
    ∀ e1 e2 e3 : List Article,
      (keptArticles allowed e1).length = 3 →
      (keptArticles allowed e2).length = 3 →
      (keptArticles allowed e3).length = 3 →
      fetch_news 5 allowed [some e1, some e2, some e3]
        = (keptArticles allowed e1 ++ keptArticles allowed e2
            ++ keptArticles allowed e3).take 5 ∧
      (fetch_news 5 allowed [some e1, some e2, some e3]).length = 5 := by
  have main : ∀ (m : Nat) (bs : List (Option (List Article))),
      fetch_news m allowed bs = ((bs.map (batchKept allowed)).flatten).take m := by
    intro m bs
    rw [fetch_news, fetchLoop_eq_join]
    have : (bs.map fun b => (batchKept allowed b).take m)
        = (bs.map (batchKept allowed)).map (List.take m) := by
      rw [List.map_map]; rfl
    rw [this, take_join_map_take _ _ _ (le_refl m)]
  refine ⟨main _ _, ?_⟩
  intro e1 e2 e3 h1 h2 h3
  have heq : fetch_news 5 allowed [some e1, some e2, some e3]
      = (keptArticles allowed e1 ++ keptArticles allowed e2
          ++ keptArticles allowed e3).take 5 := by
    rw [main]
    simp [batchKept, List.append_assoc]
  refine ⟨heq, ?_⟩
  rw [heq]
  simp [List.length_take, h1, h2, h3]

/-- Fixtures for concrete runs: one article on an allowed domain, one on a
domain outside every allowed entry. -/
def exampleMatchingArticle : Article := ⟨none, none, none, str "https://www.example.com/a"⟩

def exampleForeignArticle : Article := ⟨none, none, none, str "https://other.org/x"⟩

/-- Concrete run of C3: three batches of three matching articles each, with
`max_articles = 5`, produce the first five of the nine-article concatenation. -/
theorem fetch_news_is_global_truncation_witness :
    (keptArticles [str "example.com"]
      [exampleMatchingArticle, exampleMatchingArticle, exampleMatchingArticle]).length = 3 ∧
    fetch_news 5 [str "example.com"]
        [some [exampleMatchingArticle, exampleMatchingArticle, exampleMatchingArticle],
         some [exampleMatchingArticle, exampleMatchingArticle, exampleMatchingArticle],
         some [exampleMatchingArticle, exampleMatchingArticle, exampleMatchingArticle]]
      = (keptArticles [str "example.com"]
            [exampleMatchingArticle, exampleMatchingArticle, exampleMatchingArticle]
          ++ keptArticles [str "example.com"]
            [exampleMatchingArticle, exampleMatchingArticle, exampleMatchingArticle]
          ++ keptArticles [str "example.com"]
            [exampleMatchingArticle, exampleMatchingArticle, exampleMatchingArticle]).take 5 ∧
    (fetch_news 5 [str "example.com"]
        [some [exampleMatchingArticle, exampleMatchingArticle, exampleMatchingArticle],
         some [exampleMatchingArticle, exampleMatchingArticle, exampleMatchingArticle],
         some [exampleMatchingArticle, exampleMatchingArticle, exampleMatchingArticle]]).length
      = 5 := by
  have h := (fetch_news_is_global_truncation 5 [str "example.com"] []).2
    [exampleMatchingArticle, exampleMatchingArticle, exampleMatchingArticle]
    [exampleMatchingArticle, exampleMatchingArticle, exampleMatchingArticle]
    [exampleMatchingArticle, exampleMatchingArticle, exampleMatchingArticle]
    (by decide) (by decide) (by decide)
  exact ⟨by decide, h.1, h.2⟩

/-- C4: when an allowed-domain list is supplied, the batch has at least one
raw result, and no result matches any allowed domain, the kept list is
exactly the single first raw result. -/
theorem keptArticles_fallback_first (allowed : List Text) (entries : List Article)
    (hA : allowed ≠ []) (hne : entries ≠ [])
    (hmiss : ∀ a ∈ entries, articleMatches allowed a = false) :
    keptArticles allowed entries = entries.take 1 ∧
    (keptArticles allowed entries).length = 1 := by
  have hAe : allowed.isEmpty = false := by
    cases allowed with
    | nil => exact absurd rfl hA
    | cons d ds => rfl
  have hfil : entries.filter (articleMatches allowed) = [] := by
    rw [List.filter_eq_nil_iff]
    intro a ha
    simp [hmiss a ha]
  have hkept : keptArticles allowed entries = entries.take 1 := by
    rw [keptArticles, hAe]
    simp [hfil]
  refine ⟨hkept, ?_⟩
  rw [hkept]
  cases entries with
  | nil => exact absurd rfl hne
  | cons a rest => rfl

/-- Concrete run of C4: one raw article on a non-allowed domain is kept as
the fallback, with kept length 1. -/
theorem keptArticles_fallback_first_witness :
    ([str "example.com"] : List Text) ≠ [] ∧
    ([exampleForeignArticle] : List Article) ≠ [] ∧
    (∀ a ∈ [exampleForeignArticle], articleMatches [str "example.com"] a = false) ∧
    keptArticles [str "example.com"] [exampleForeignArticle]
      = [exampleForeignArticle].take 1 ∧
    (keptArticles [str "example.com"] [exampleForeignArticle]).length = 1 :=
  ⟨by decide, by decide, by decide,
    keptArticles_fallback_first [str "example.com"] [exampleForeignArticle]
      (by decide) (by decide) (by decide)⟩

/-- The normalization the spec describes, for comparison with the code:
strip the scheme and remove only a leading "www." prefix of the host. -/
def stripLeadingWWWSpec (source_link : Text) : Text :=
  let host := netloc source_link
  if (str "www.").isPrefixOf host then host.drop 4 else host

/-- C5 counterexample: the code's `replace("www.", "")` removes every
occurrence of "www." in the host, not only a leading prefix, so on a host
with an interior "www." the two disagree. -/
theorem normalizeDomain_ne_leading_strip :
    normalizeDomain (str "https://news.www.example.com/x")
      ≠ stripLeadingWWWSpec (str "https://news.www.example.com/x") ∧
    normalizeDomain (str "https://news.www.example.com/x") = str "news.example.com" ∧
    stripLeadingWWWSpec (str "https://news.www.example.com/x")
      = str "news.www.example.com" := by
  decide

/-- C5 amended: the filter domain is the source URL host with the scheme
stripped and every occurrence of the substring "www." removed; the
round-trip example of the claim still holds and matches the allowed-domain
entry. -/
theorem normalizeDomain_round_trip :
    normalizeDomain (str "https://www.economictimes.indiatimes.com/x")
      = str "economictimes.indiatimes.com" ∧
    containsPat (str "economictimes.indiatimes.com")
      (normalizeDomain (str "https://www.economictimes.indiatimes.com/x")) = true ∧
    articleMatches [str "economictimes.indiatimes.com"]
      ⟨none, none, none, str "https://www.economictimes.indiatimes.com/x"⟩ = true ∧
    normalizeDomain (str "https://news.www.example.com/x") = str "news.example.com" := by
  decide

/-- The per-article prompt template of the classifier
(src/streamlit_app.py lines 31-68), verbatim. -/
def PROMPT_INDIVIDUAL_ANALYSIS : Text := str "Carefully analyze the following news article text for information directly indicating potential reasons for client churn specifically for an **employee benefits company in India**. Focus only on details that would impact an employee benefits provider or suggest a company might reduce or discontinue its employee benefits programs.

**Text:**
{provided_text}

Based on your analysis and using the provided categories below, determine the churn risk and the specific reason(s).

1.  **Risk Level (First Line):** State the risk level as one of the following:
    * \"High Risk\"
    * \"Medium Risk\"
    * \"Low Risk\"
    * \"No Churn Risk Indicated\" (If no relevant information is found regarding churn for an employee benefits company)

2.  **Reason(s) for Risk (Second Line):** If a risk is indicated, explain the major reason(s) concisely, referencing the relevant category (e.g., \"Reason: [Category Name] - Brief explanation.\"). If there are multiple relevant reasons, list them clearly.

3.  **2-Line Summary of Analysis (Third and Fourth Lines):** Provide a brief, overall summary of the article\x27s relevance to churn for an employee benefits company, condensing the key findings into exactly two lines. If no churn risk is indicated, summarize why the article is not relevant.

**Categories for Reasons:**
I. Corporate Restructuring (Mergers, Acquisitions, Joint Ventures, IPO, Entity Realignment, Rebranding, Consolidation, Subsidiary changes)
II. Business Discontinuity (Closures, Market Exits, Bankruptcy, Operational Suspensions, Business Model Pivots)
III. Strategic Policy Changes (Benefits Strategy Transformation, Leadership Changes impacting strategy, Cost Optimization related to benefits, Changes in top leadership impacting benefits)
IV. Financial Constraints (Cash Flow Issues, Cost-Cutting impacting benefits, Budget Reallocation away from benefits, Severe financial loss)
V. Employment Structure Changes (Workforce Reorganization, Shifts to contractual work, Remote work transitions impacting benefits, Layoffs, Furloughs, Downsizing)
VI. Regulatory & Compliance Factors (India Specific: Changes in tax policy, GST, labor codes, social security impacting benefits compliance or costs)
VII. Competitive Market Dynamics (Client switched vendor, New platform adoption by client, Competitor activity in benefits space, Pricing pressures on benefits, Market share shifts impacting client\x27s ability to offer benefits, Disruption in client\x27s industry affecting benefits, Client\x27s value proposition change impacting benefits)
VIII. Technological Transitions (Digital transformation affecting benefits administration, HRMS integration impacting benefits systems, API changes relevant to benefits platforms, Analytics adoption impacting benefits, Mobile app for benefits, Platform upgrade for benefits management)
IX. Service Delivery Issues (Onboarding delay with benefits provider, Tech issues with benefits platform, Merchant issue impacting benefits, Support problem with benefits services, Delivery delay of benefits, Reimbursement issue with benefits claims)
X. Employee Engagement (Low adoption of benefits programs, Poor user experience with benefits platform, Negative employee feedback on benefits, Generation gap affecting benefits appeal, Hybrid work models impacting benefits usage, Usage drop in benefits offerings)

**Example Output Format (for High/Medium/Low Risk):**
High Risk
Reason: Business Discontinuity - Company announced complete shutdown impacting all operations including benefits.
Summary: The company is facing imminent closure, directly impacting its ability to retain any employee benefits plans. This represents a critical churn event for any associated benefits provider.

**Example Output Format (for No Risk):
No Churn Risk Indicated
Summary: The article discusses general market trends not specific to the company\x27s operational or financial health. It provides no indication of changes relevant to employee benefits or potential churn.
"

/-- The combined-analysis prompt template (lines 70-76), verbatim. -/
def PROMPT_COMBINED_ANALYSIS : Text := str "Given the individual analyses of news articles related to a company and potential client churn, provide an overall summary (at most 4 lines).

**Individual Article Analyses:**
{individual_analyses_summary}

In the first line, state the overall risk level for churn for the company (e.g., \"Overall High Risk,\" \"Overall Medium Risk,\" \"Overall Low Risk,\" \"Overall No Churn Risk Indicated\"). In the subsequent lines, summarize the major reasons for this overall risk, drawing from the categories mentioned in the individual analyses. Be concise and focus on the most impactful reasons across all articles. If no relevant information is found across all articles, state \"Overall No Churn Risk Indicated.\"
"

/-- The "{company_name}" placeholder that `str.format` substitutes. -/
def companyPat : Text := str "{company_name}"

/-- The "{provided_text}" placeholder that `str.format` substitutes. -/
def providedPat : Text := str "{provided_text}"

/-- Embedding of `prompt_template.format(company_name=..., provided_text=...)`
(line 82): one left-to-right scan of the template, substituting each
placeholder occurrence with the corresponding value; substituted values are
not rescanned. -/
def pyFormat (template company_name provided_text : Text) : Text :=
  if h1 : companyPat.isPrefixOf template then
    company_name ++ pyFormat (template.drop companyPat.length) company_name provided_text
  else if h2 : providedPat.isPrefixOf template then
    provided_text ++ pyFormat (template.drop providedPat.length) company_name provided_text
  else
    match template with
    | [] => []
    | c :: rest => c :: pyFormat rest company_name provided_text
termination_by template.length
decreasing_by
  · have hlen := (List.isPrefixOf_iff_prefix.mp h1).length_le
    have h14 : companyPat.length = 14 := by decide
    simp only [List.length_drop]
    omega
  · have hlen := (List.isPrefixOf_iff_prefix.mp h2).length_le
    have h15 : providedPat.length = 15 := by decide
    simp only [List.length_drop]
    omega
  · simp

/-- The text-generation provider: maps the prompt sent as the single user
message to either a raised exception (`Except.error`) or the completion
content, which Python may observe as `None` (`none`) or a string. -/
def Provider := Text → Except Unit (Option Text)

/-- Embedding of `analyze_text` (lines 80-94): format the prompt from the
template, call the provider, catch any raised error as the fixed failure
string, and replace a falsy completion by the "Unexpected response"
message. -/
def analyze_text (company_name provided_text prompt_template : Text)
    (client : Provider) : Text :=
  let prompt := pyFormat prompt_template company_name provided_text
  match client prompt with
  | .error _ => str "Analysis failed due to AI service error."
  | .ok none => str "Unexpected response: None"
  | .ok (some output) => if output.isEmpty then str "Unexpected response: " else output

/-- The `st.cache_data` key of one `analyze_text` call: the tuple of every
argument not prefixed with an underscore, i.e. (company_name,
provided_text, prompt_template); the client argument is excluded. -/
def cacheKey (company_name provided_text prompt_template : Text) :
    Text × Text × Text :=
  (company_name, provided_text, prompt_template)

/-- Python `x or y` where `x` is an optional string: `y` when `x` is absent,
`None` or empty, else `x`. -/
def orElseText (x : Option Text) (y : Text) : Text :=
  match x with
  | none => y
  | some s => if s.isEmpty then y else s

/-- Embedding of `process_article` (lines 144-146):
`article.get('summary') or article.get('title') or ""`. -/
def process_article (article : Article) : Text :=
  orElseText article.summary (orElseText article.title [])

/-- Decimal rendering of a number, as in Python f-string interpolation. -/
def natText (n : Nat) : Text := (Nat.repr n).data

/-- Python `str.strip()`: remove leading and trailing whitespace. -/
def pyStrip (t : Text) : Text :=
  ((t.dropWhile Char.isWhitespace).reverse.dropWhile Char.isWhitespace).reverse

/-- Python `s.replace(pat, repl)` for a non-empty pattern, also the model of
`template.format(name=value)` for a template whose only placeholder is
`pat`: non-overlapping left-to-right replacement, with the inserted value
not rescanned.  (For an empty pattern the original text is returned; the
program never calls it that way.) -/
def pyReplace (pat repl s : Text) : Text :=
  match pat, s with
  | [], _ => s
  | _ :: _, [] => []
  | p :: ps, c :: cs =>
    if (p :: ps).isPrefixOf (c :: cs) then
      repl ++ pyReplace (p :: ps) repl ((c :: cs).drop (p :: ps).length)
    else
      c :: pyReplace (p :: ps) repl cs
termination_by s.length
decreasing_by
  · simp only [List.length_drop, List.length_cons]
    omega
  · simp

/-- One recorded per-article analysis: the `{title, url, analysis}` dict
appended to `individual_analyses_list`. -/
structure ArticleAnalysis where
  title : Text
  url : Text
  analysis : Text
  deriving DecidableEq, Repr

/-- The per-company result dict returned by `analyze_news`. -/
structure CompanyAnalysisResult where
  individual_analyses : List ArticleAnalysis
  overall_summary : Text
  deriving DecidableEq, Repr

/-- The per-article loop of `analyze_news` (lines 166-188) processing the
articles from index `i` on.  Besides the recorded analyses and the combined
text accumulated for the second-pass prompt, it returns the log of
classifier calls made, each as its cache key, so that theorems can state
when the classifier is and is not invoked. -/
def analyzeLoop (client : Provider) (company_name : Text) :
    Nat → List Article → List ArticleAnalysis × Text × List (Text × Text × Text)
  | _, [] => ([], [], [])
  | i, article :: rest =>
    let article_text := process_article article
    let article_url := article.link.getD (str "No URL available")
    let article_title := article.title.getD (str "Article " ++ natText (i + 1))
    let (entries, combined, calls) := analyzeLoop client company_name (i + 1) rest
    if !article_text.isEmpty then
      let analysis_result :=
        analyze_text company_name article_text PROMPT_INDIVIDUAL_ANALYSIS client
      (⟨article_title, article_url, analysis_result⟩ :: entries,
        str "Article " ++ natText (i + 1) ++ str " Analysis:\n" ++ analysis_result
          ++ str "\n\n" ++ combined,
        cacheKey company_name article_text PROMPT_INDIVIDUAL_ANALYSIS :: calls)
    else
      let no_text_analysis := str "No Churn Risk Indicated (No text in article summary/title)."
      (⟨article_title, article_url, no_text_analysis⟩ :: entries,
        str "Article " ++ natText (i + 1) ++ str " Analysis:\n" ++ no_text_analysis
          ++ str "\n\n" ++ combined,
        calls)

/-- Embedding of `analyze_news` (lines 149-197).  The news-fetch result is
an input, with `none` modelling the `None` that `fetch_news` returns on a
provider failure; the returned pair is the per-company result together with
the classifier call log. -/
def analyze_news (sambanova_client : Option Provider) (company_name : Text)
    (all_articles : Option (List Article)) :
    CompanyAnalysisResult × List (Text × Text × Text) :=
  match sambanova_client with
  | none => (⟨[], str "API client is not available."⟩, [])
  | some client =>
    match all_articles with
    | none => (⟨[], str "No relevant news articles found for analysis."⟩, [])
    | some [] => (⟨[], str "No relevant news articles found for analysis."⟩, [])
    | some (a :: rest) =>
      let (entries, combined, calls) := analyzeLoop client company_name 0 (a :: rest)
      if entries.isEmpty then
        (⟨entries, str "Overall No Churn Risk Indicated."⟩, calls)
      else
        let combined_prompt :=
          pyReplace (str "{individual_analyses_summary}") (pyStrip combined)
            PROMPT_COMBINED_ANALYSIS
        let overall :=
          analyze_text company_name combined_prompt (str "{provided_text}") client
        (⟨entries, overall⟩,
          calls ++ [cacheKey company_name combined_prompt (str "{provided_text}")])

/-- The analysis entry that `analyze_news` records for the article at index
`i`, expressed as a function of that article alone (client and company
fixed): the recorded title and url with their fallbacks, and either the
classifier output on the extracted text or the no-text placeholder. -/
def mkEntry (client : Provider) (company_name : Text) (i : Nat) (article : Article) :
    ArticleAnalysis :=
  let article_text := process_article article
  { title := article.title.getD (str "Article " ++ natText (i + 1))
    url := article.link.getD (str "No URL available")
    analysis :=
      if !article_text.isEmpty then
        analyze_text company_name article_text PROMPT_INDIVIDUAL_ANALYSIS client
      else
        str "No Churn Risk Indicated (No text in article summary/title)." }

theorem analyzeLoop_entries (client : Provider) (c : Text) (arts : List Article) :
    ∀ i, (analyzeLoop client c i arts).1
      = (List.enumFrom i arts).map fun ia => mkEntry client c ia.1 ia.2 := by
  induction arts with
  | nil => intro i; rfl
  | cons a rest ih =>
    intro i
    rcases hrec : analyzeLoop client c (i + 1) rest with ⟨entries, combined, calls⟩
    have he := ih (i + 1)
    rw [hrec] at he
    simp only [analyzeLoop, hrec, List.enumFrom_cons, List.map_cons]
    by_cases hc : (process_article a).isEmpty
    · have hcond : ¬ ((!(process_article a).isEmpty) = true) := by simp [hc]
      rw [if_neg hcond]
      exact congrArg₂ List.cons (by simp [mkEntry, hc]) he
    · simp only [Bool.not_eq_true] at hc
      have hcond : (!(process_article a).isEmpty) = true := by simp [hc]
      rw [if_pos hcond]
      exact congrArg₂ List.cons (by simp [mkEntry, hc]) he

theorem analyzeLoop_calls (client : Provider) (c : Text) (arts : List Article) :
    ∀ i, (analyzeLoop client c i arts).2.2
      = (arts.filter fun a => !(process_article a).isEmpty).map
          fun a => cacheKey c (process_article a) PROMPT_INDIVIDUAL_ANALYSIS := by
  induction arts with
  | nil => intro i; rfl
  | cons a rest ih =>
    intro i
    rcases hrec : analyzeLoop client c (i + 1) rest with ⟨entries, combined, calls⟩
    have hcalls := ih (i + 1)
    rw [hrec] at hcalls
    simp only [analyzeLoop, hrec]
    by_cases hc : (process_article a).isEmpty
    · have hcond : ¬ ((!(process_article a).isEmpty) = true) := by simp [hc]
      rw [if_neg hcond, List.filter_cons_of_neg (by simp [hc])]
      exact hcalls
    · simp only [Bool.not_eq_true] at hc
      have hcond : (!(process_article a).isEmpty) = true := by simp [hc]
      rw [if_pos hcond, List.filter_cons_of_pos (by simp [hc])]
      exact congrArg₂ List.cons rfl hcalls

/-- C2: with a working client and a non-empty fetched article list, the
recorded individual analyses are exactly one entry per article, in the
original article order (the map of `mkEntry` over the indexed article
list): no reordering, no drops, and an article with no extractable text
still yields its (placeholder) entry. -/
theorem analyze_news_one_entry_per_article (client : Provider) (company : Text)
    (arts : List Article) (hne : arts ≠ []) :
    (analyze_news (some client) company (some arts)).1.individual_analyses.length
      = arts.length ∧
    (analyze_news (some client) company (some arts)).1.individual_analyses
      = (List.enumFrom 0 arts).map fun ia => mkEntry client company ia.1 ia.2 := by
  cases arts with
  | nil => exact absurd rfl hne
  | cons a rest =>
    have hmap : (analyze_news (some client) company (some (a :: rest))).1.individual_analyses
        = (List.enumFrom 0 (a :: rest)).map fun ia => mkEntry client company ia.1 ia.2 := by
      have hent := analyzeLoop_entries client company (a :: rest) 0
      rcases hloop : analyzeLoop client company 0 (a :: rest) with ⟨entries, combined, calls⟩
      rw [hloop] at hent
      simp only [analyze_news, hloop]
      split
      · exact hent
      · exact hent
    refine ⟨?_, hmap⟩
    rw [hmap]
    simp

/-- Concrete run of C2: two articles (one with text, one without) produce
exactly two entries in article order. -/
theorem analyze_news_one_entry_per_article_witness :
    ([⟨some (str "T1"), some (str "u1"), some (str "summary one"), str ""⟩,
      exampleForeignArticle] : List Article) ≠ [] ∧
    (analyze_news (some fun _ => .ok (some (str "High Risk"))) (str "Acme")
        (some [⟨some (str "T1"), some (str "u1"), some (str "summary one"), str ""⟩,
          exampleForeignArticle])).1.individual_analyses.length = 2 ∧
    (analyze_news (some fun _ => .ok (some (str "High Risk"))) (str "Acme")
        (some [⟨some (str "T1"), some (str "u1"), some (str "summary one"), str ""⟩,
          exampleForeignArticle])).1.individual_analyses
      = (List.enumFrom 0 [⟨some (str "T1"), some (str "u1"), some (str "summary one"), str ""⟩,
          exampleForeignArticle]).map
          fun ia => mkEntry (fun _ => .ok (some (str "High Risk"))) (str "Acme") ia.1 ia.2 := by
  have h := analyze_news_one_entry_per_article (fun _ => .ok (some (str "High Risk")))
    (str "Acme")
    [⟨some (str "T1"), some (str "u1"), some (str "summary one"), str ""⟩,
      exampleForeignArticle] (by decide)
  exact ⟨by decide, h.1, h.2⟩

/-- C6: when the news fetch yields no articles — the empty list, or the
`None` that `fetch_news` returns when the provider call raises —
`analyze_news` returns the empty analysis list with the literal terminal
summary, and the classifier call log is empty. -/
theorem analyze_news_terminal_when_no_articles (client : Provider) (company : Text)
    (all_articles : Option (List Article))
    (h : all_articles = none ∨ all_articles = some []) :
    analyze_news (some client) company all_articles
      = (⟨[], str "No relevant news articles found for analysis."⟩, []) := by
  rcases h with h | h <;> subst h <;> rfl

/-- Concrete run of C6: a provider failure (`none` fetch result) yields the
terminal result and no classifier calls. -/
theorem analyze_news_terminal_when_no_articles_witness :
    ((none : Option (List Article)) = none ∨ (none : Option (List Article)) = some []) ∧
    analyze_news (some fun _ => .error ()) (str "Acme") none
      = (⟨[], str "No relevant news articles found for analysis."⟩, []) :=
  ⟨Or.inl rfl,
    analyze_news_terminal_when_no_articles (fun _ => .error ()) (str "Acme") none
      (Or.inl rfl)⟩

/-- C7: the extracted article text is the summary when present and
non-empty, else the title when present and non-empty, else empty; in the
per-article loop, an article with text is classified with the per-article
prompt template and recorded as its title/url/analysis entry plus one
classifier call, and an article without text records the literal
placeholder analysis without any classifier call. -/
theorem per_article_extraction_and_classification (client : Provider) (company : Text)
    (i : Nat) (article : Article) (rest : List Article) :
    (∀ s, article.summary = some s → s ≠ [] → process_article article = s) ∧
    ((article.summary = none ∨ article.summary = some []) →
      ∀ t, article.title = some t → t ≠ [] → process_article article = t) ∧
    ((article.summary = none ∨ article.summary = some []) →
      (article.title = none ∨ article.title = some []) →
      process_article article = []) ∧
    (process_article article ≠ [] →
      analyzeLoop client company i (article :: rest)
        = (⟨article.title.getD (str "Article " ++ natText (i + 1)),
            article.link.getD (str "No URL available"),
            analyze_text company (process_article article)
              PROMPT_INDIVIDUAL_ANALYSIS client⟩
              :: (analyzeLoop client company (i + 1) rest).1,
           str "Article " ++ natText (i + 1) ++ str " Analysis:\n"
             ++ analyze_text company (process_article article)
                  PROMPT_INDIVIDUAL_ANALYSIS client
             ++ str "\n\n" ++ (analyzeLoop client company (i + 1) rest).2.1,
           cacheKey company (process_article article) PROMPT_INDIVIDUAL_ANALYSIS
             :: (analyzeLoop client company (i + 1) rest).2.2)) ∧
    (process_article article = [] →
      analyzeLoop client company i (article :: rest)
        = (⟨article.title.getD (str "Article " ++ natText (i + 1)),
            article.link.getD (str "No URL available"),
            str "No Churn Risk Indicated (No text in article summary/title)."⟩
              :: (analyzeLoop client company (i + 1) rest).1,
           str "Article " ++ natText (i + 1) ++ str " Analysis:\n"
             ++ str "No Churn Risk Indicated (No text in article summary/title)."
             ++ str "\n\n" ++ (analyzeLoop client company (i + 1) rest).2.1,
           (analyzeLoop client company (i + 1) rest).2.2)) := by
  refine ⟨?_, ?_, ?_, ?_, ?_⟩
  · intro s hs hne
    simp [process_article, orElseText, hs, List.isEmpty_iff, hne]
  · intro hsum t ht hne
    rcases hsum with hsum | hsum <;>
      simp [process_article, orElseText, hsum, ht, List.isEmpty_iff, hne]
  · intro hsum htit
    rcases hsum with hsum | hsum <;> rcases htit with htit | htit <;>
      simp [process_article, orElseText, hsum, htit]
  · intro hne
    rcases hrec : analyzeLoop client company (i + 1) rest with ⟨entries, combined, calls⟩
    have hcond : (!(process_article article).isEmpty) = true := by
      simp [List.isEmpty_iff, hne]
    simp only [analyzeLoop, hrec]
    rw [if_pos hcond]
  · intro hemp
    rcases hrec : analyzeLoop client company (i + 1) rest with ⟨entries, combined, calls⟩
    have hcond : ¬ ((!(process_article article).isEmpty) = true) := by
      simp [List.isEmpty_iff, hemp]
    simp only [analyzeLoop, hrec]
    rw [if_neg hcond]

/-- Concrete runs of C7: a summary-bearing article is classified, a
title-only article falls back to the title, and a no-text article yields
the placeholder with no classifier call. -/
theorem per_article_extraction_and_classification_witness :
    process_article ⟨some (str "T1"), some (str "u1"), some (str "S1"), str ""⟩
      = str "S1" ∧
    process_article ⟨some (str "T2"), none, none, str ""⟩ = str "T2" ∧
    process_article exampleForeignArticle = [] ∧
    analyzeLoop (fun _ => .ok (some (str "High Risk"))) (str "Acme") 0
        [⟨some (str "T1"), some (str "u1"), some (str "S1"), str ""⟩]
      = (⟨str "T1", str "u1",
          analyze_text (str "Acme") (process_article
              ⟨some (str "T1"), some (str "u1"), some (str "S1"), str ""⟩)
            PROMPT_INDIVIDUAL_ANALYSIS (fun _ => .ok (some (str "High Risk")))⟩ :: [],
         str "Article " ++ natText 1 ++ str " Analysis:\n"
           ++ analyze_text (str "Acme") (process_article
                ⟨some (str "T1"), some (str "u1"), some (str "S1"), str ""⟩)
              PROMPT_INDIVIDUAL_ANALYSIS (fun _ => .ok (some (str "High Risk")))
           ++ str "\n\n",
         [cacheKey (str "Acme") (process_article
              ⟨some (str "T1"), some (str "u1"), some (str "S1"), str ""⟩)
            PROMPT_INDIVIDUAL_ANALYSIS]) ∧
    analyzeLoop (fun _ => .ok (some (str "High Risk"))) (str "Acme") 0
        [exampleForeignArticle]
      = (⟨str "Article " ++ natText 1, str "No URL available",
          str "No Churn Risk Indicated (No text in article summary/title)."⟩ :: [],
         str "Article " ++ natText 1 ++ str " Analysis:\n"
           ++ str "No Churn Risk Indicated (No text in article summary/title)."
           ++ str "\n\n",
         []) := by
  have hA := per_article_extraction_and_classification
    (fun _ => .ok (some (str "High Risk"))) (str "Acme") 0
    ⟨some (str "T1"), some (str "u1"), some (str "S1"), str ""⟩ []
  have hC := per_article_extraction_and_classification
    (fun _ => .ok (some (str "High Risk"))) (str "Acme") 0
    ⟨some (str "T2"), none, none, str ""⟩ []
  have hB := per_article_extraction_and_classification
    (fun _ => .ok (some (str "High Risk"))) (str "Acme") 0
    exampleForeignArticle []
  refine ⟨hA.1 (str "S1") rfl (by decide),
    hC.2.1 (Or.inl rfl) (str "T2") rfl (by decide),
    hB.2.2.1 (Or.inl rfl) (Or.inl rfl), ?_, ?_⟩
  · have h4 := hA.2.2.2.1 (by decide)
    simpa using h4
  · have h5 := hB.2.2.2.2 (hB.2.2.1 (Or.inl rfl) (Or.inl rfl))
    simpa using h5

/-- C8: when the provider raises on the formatted prompt, `analyze_text`
catches the error and returns the literal failure string instead of
propagating the exception. -/
theorem analyze_text_catches_provider_error (client : Provider)
    (company_name provided_text prompt_template : Text)
    (h : client (pyFormat prompt_template company_name provided_text) = .error ()) :
    analyze_text company_name provided_text prompt_template client
      = str "Analysis failed due to AI service error." := by
  simp [analyze_text, h]

/-- Concrete run of C8: an always-raising provider produces the failure
string. -/
theorem analyze_text_catches_provider_error_witness :
    (fun _ => .error () : Provider)
        (pyFormat (str "{provided_text}") (str "Acme") (str "some article text"))
      = .error () ∧
    analyze_text (str "Acme") (str "some article text") (str "{provided_text}")
        (fun _ => .error ())
      = str "Analysis failed due to AI service error." :=
  ⟨rfl, analyze_text_catches_provider_error (fun _ => .error ()) (str "Acme")
    (str "some article text") (str "{provided_text}") rfl⟩

theorem analyze_news_calls_structure (client : Provider) (company : Text)
    (a : Article) (rest : List Article) :
    ∃ cp, (analyze_news (some client) company (some (a :: rest))).2
      = ((a :: rest).filter fun x => !(process_article x).isEmpty).map
          (fun x => cacheKey company (process_article x) PROMPT_INDIVIDUAL_ANALYSIS)
        ++ [cacheKey company cp (str "{provided_text}")] := by
  rcases hloop : analyzeLoop client company 0 (a :: rest) with ⟨entries, combined, calls⟩
  have hent := analyzeLoop_entries client company (a :: rest) 0
  rw [hloop] at hent
  have hcalls := analyzeLoop_calls client company (a :: rest) 0
  rw [hloop] at hcalls
  have hene : entries.isEmpty = false := by
    have : entries = (List.enumFrom 0 (a :: rest)).map
        fun ia => mkEntry client company ia.1 ia.2 := hent
    rw [this]
    simp
  refine ⟨pyReplace (str "{individual_analyses_summary}") (pyStrip combined)
    PROMPT_COMBINED_ANALYSIS, ?_⟩
  simp only [analyze_news, hloop]
  rw [if_neg (by simp [hene])]
  simp only []
  exact congrArg₂ List.append hcalls rfl

/-- C9: the cache key of each classifier call is the (company, text,
prompt_template) tuple, so every key carries one of the two template
identities, the two templates differ, and a per-article key can never equal
the combined-summary key — the two prompts never collide in the cache. -/
theorem classification_cache_keys_never_collide (client : Provider) (company : Text)
    (arts : List Article) (hne : arts ≠ []) :
    (∀ k ∈ (analyze_news (some client) company (some arts)).2,
        k.2.2 = PROMPT_INDIVIDUAL_ANALYSIS ∨ k.2.2 = str "{provided_text}") ∧
    PROMPT_INDIVIDUAL_ANALYSIS ≠ str "{provided_text}" ∧
    (∀ k1 ∈ (analyze_news (some client) company (some arts)).2,
      ∀ k2 ∈ (analyze_news (some client) company (some arts)).2,
        k1.2.2 = PROMPT_INDIVIDUAL_ANALYSIS → k2.2.2 = str "{provided_text}" →
          k1 ≠ k2) := by
  have hdiff : PROMPT_INDIVIDUAL_ANALYSIS ≠ str "{provided_text}" := by decide
  cases arts with
  | nil => exact absurd rfl hne
  | cons a rest =>
    obtain ⟨cp, hlog⟩ := analyze_news_calls_structure client company a rest
    refine ⟨?_, hdiff, ?_⟩
    · intro k hk
      rw [hlog] at hk
      rcases List.mem_append.mp hk with hk | hk
      · obtain ⟨x, _, hx⟩ := List.mem_map.mp hk
        left
        rw [← hx]
        rfl
      · right
        rw [List.mem_singleton.mp hk]
        rfl
    · intro k1 _ k2 _ h1 h2 heq
      rw [heq, h2] at h1
      exact hdiff h1.symm

/-- Concrete run of C9 at a one-article fetch. -/
theorem classification_cache_keys_never_collide_witness :
    ([⟨some (str "T1"), some (str "u1"), some (str "S1"), str ""⟩] : List Article) ≠ [] ∧
    PROMPT_INDIVIDUAL_ANALYSIS ≠ str "{provided_text}" ∧
    (∀ k1 ∈ (analyze_news (some fun _ => .ok (some (str "High Risk"))) (str "Acme")
        (some [⟨some (str "T1"), some (str "u1"), some (str "S1"), str ""⟩])).2,
      ∀ k2 ∈ (analyze_news (some fun _ => .ok (some (str "High Risk"))) (str "Acme")
        (some [⟨some (str "T1"), some (str "u1"), some (str "S1"), str ""⟩])).2,
        k1.2.2 = PROMPT_INDIVIDUAL_ANALYSIS → k2.2.2 = str "{provided_text}" →
          k1 ≠ k2) := by
  have h := classification_cache_keys_never_collide
    (fun _ => .ok (some (str "High Risk"))) (str "Acme")
    [⟨some (str "T1"), some (str "u1"), some (str "S1"), str ""⟩] (by decide)
  exact ⟨by decide, h.2.1, h.2.2⟩

theorem pyFormat_eq_nil (c x : Text) : pyFormat [] c x = [] := by
  have h1 : ¬ (companyPat.isPrefixOf ([] : Text) = true) := by decide
  have h2 : ¬ (providedPat.isPrefixOf ([] : Text) = true) := by decide
  rw [pyFormat, dif_neg h1, dif_neg h2]

theorem pyFormat_provided_step (t c x : Text)
    (h1 : ¬ (companyPat.isPrefixOf t = true))
    (h2 : providedPat.isPrefixOf t = true) :
    pyFormat t c x = x ++ pyFormat (t.drop providedPat.length) c x := by
  rw [pyFormat, dif_neg h1, dif_pos h2]

theorem pyFormat_other_step (ch : Char) (cs : Text) (c x : Text)
    (h1 : ¬ (companyPat.isPrefixOf (ch :: cs) = true))
    (h2 : ¬ (providedPat.isPrefixOf (ch :: cs) = true)) :
    pyFormat (ch :: cs) c x = ch :: pyFormat cs c x := by
  rw [pyFormat, dif_neg h1, dif_neg h2]

theorem pyFormat_company_indep :
    ∀ t : Text, ¬ companyPat <:+: t →
      ∀ c1 c2 x, pyFormat t c1 x = pyFormat t c2 x := by
  have H : ∀ n (t : Text), t.length ≤ n → ¬ companyPat <:+: t →
      ∀ c1 c2 x, pyFormat t c1 x = pyFormat t c2 x := by
    intro n
    induction n with
    | zero =>
      intro t ht _ c1 c2 x
      have ht0 : t = [] := List.eq_nil_of_length_eq_zero (Nat.le_zero.mp ht)
      subst ht0
      rw [pyFormat_eq_nil, pyFormat_eq_nil]
    | succ n ih =>
      intro t ht hcon c1 c2 x
      have hcp : ¬ (companyPat.isPrefixOf t = true) := by
        intro hb
        exact hcon (List.isPrefixOf_iff_prefix.mp hb).isInfix
      by_cases hpv : providedPat.isPrefixOf t = true
      · rw [pyFormat_provided_step t c1 x hcp hpv, pyFormat_provided_step t c2 x hcp hpv]
        have hlen := (List.isPrefixOf_iff_prefix.mp hpv).length_le
        have h15 : providedPat.length = 15 := by decide
        refine congrArg _ (ih (t.drop providedPat.length) ?_ ?_ c1 c2 x)
        · simp only [List.length_drop]
          omega
        · intro hinf
          exact hcon (hinf.trans (List.drop_suffix _ _).isInfix)
      · cases t with
        | nil => rw [pyFormat_eq_nil, pyFormat_eq_nil]
        | cons ch cs =>
          rw [pyFormat_other_step ch cs c1 x hcp hpv,
            pyFormat_other_step ch cs c2 x hcp hpv]
          refine congrArg _ (ih cs ?_ ?_ c1 c2 x)
          · simpa using ht
          · intro hinf
            exact hcon (hinf.trans (List.suffix_cons ch cs).isInfix)
  intro t hcon c1 c2 x
  exact H t.length t (le_refl _) hcon c1 c2 x

/-- C10: neither prompt template the program actually passes to the
classifier contains the "{company_name}" placeholder, so the prompt string
constructed for the provider is independent of the company name: two calls
differing only in company name, with the same text and template, format
identical prompts and receive identical provider answers. -/
theorem prompt_independent_of_company (c1 c2 x : Text) :
    pyFormat PROMPT_INDIVIDUAL_ANALYSIS c1 x
      = pyFormat PROMPT_INDIVIDUAL_ANALYSIS c2 x ∧
    pyFormat (str "{provided_text}") c1 x = pyFormat (str "{provided_text}") c2 x ∧
    (∀ client : Provider,
      analyze_text c1 x PROMPT_INDIVIDUAL_ANALYSIS client
        = analyze_text c2 x PROMPT_INDIVIDUAL_ANALYSIS client) ∧
    (∀ client : Provider,
      analyze_text c1 x (str "{provided_text}") client
        = analyze_text c2 x (str "{provided_text}") client) := by
  have hindiv : ¬ companyPat <:+: PROMPT_INDIVIDUAL_ANALYSIS :=
    (containsPat_eq_false_iff _ _).mp (by decide)
  have hprov : ¬ companyPat <:+: str "{provided_text}" :=
    (containsPat_eq_false_iff _ _).mp (by decide)
  have h1 := pyFormat_company_indep _ hindiv c1 c2 x
  have h2 := pyFormat_company_indep _ hprov c1 c2 x
  refine ⟨h1, h2, ?_, ?_⟩
  · intro client
    simp only [analyze_text, h1]
  · intro client
    simp only [analyze_text, h2]
